import Mathlib

/-!
Verification development for the Surfe dashboard's core pipeline:
the HTTP transport retry behaviour (`utils/api_client.py`), the enrichment
job poller (`SurfeApiClient.get_enrichment_results`), the field mapper
(`utils/helpers.py`: `extract_company_data`, `safe_convert_for_display`,
`calculate_company_size`, `format_linkedin_url`) and the pagination gate of
the company-search page (`pages/2_Company_Search.py`).

Python strings are modelled as `List Char`, Python/JSON values as `JValue`.
Machine floats never reach the properties checked here, so JSON numbers are
modelled as integers.
-/

/-- Python strings are modelled as lists of characters. -/
abbrev PyStr := List Char

/-- Shorthand turning a Lean string literal into the `List Char` model. -/
def pys (s : String) : PyStr := s.data

/-- Whitespace characters recognised by Python's `str.strip()` (the subset that
can occur in the data handled here). -/
def isPySpace (c : Char) : Bool := c = ' ' ∨ c = '\t' ∨ c = '\n' ∨ c = '\r'

/-- Python `str.strip()`: drop leading and trailing whitespace. -/
def pyStrip (s : PyStr) : PyStr :=
  ((s.dropWhile isPySpace).reverse.dropWhile isPySpace).reverse

/-- Python `str.split(sep)` for a one-character separator: the full split into
the (possibly empty) chunks between separators. -/
def pySplit (sep : Char) : PyStr → List PyStr
  | [] => [[]]
  | c :: rest =>
    let r := pySplit sep rest
    if c = sep then [] :: r
    else
      match r with
      | [] => [[c]]
      | h :: t => (c :: h) :: t

/-- Python `str.split(sep)[0]`: the characters before the first occurrence of
`sep` (the whole string when `sep` is absent). -/
def splitHead (sep : Char) (s : PyStr) : PyStr := s.takeWhile (fun c => c ≠ sep)

/-- Python `str.endswith(c)` for a single character. -/
def pyEndsWith (s : PyStr) (c : Char) : Bool := s.getLast? = some c

/-- Python `needle in haystack` substring test. -/
def containsSub (needle : PyStr) : PyStr → Bool
  | [] => needle.isPrefixOf []
  | c :: rest => needle.isPrefixOf (c :: rest) || containsSub needle rest

/-- Fuel-driven worker for `pyReplace`; with `fuel ≥ s.length` it scans the
string left to right replacing every occurrence of the needle (a non-empty
needle consumes at least one character per step, so one unit of fuel per step
suffices). -/
def pyReplaceAux (needle repl : PyStr) : Nat → PyStr → PyStr
  | _, [] => []
  | 0, s => s
  | fuel + 1, c :: rest =>
    if needle ≠ [] ∧ needle.isPrefixOf (c :: rest) then
      repl ++ pyReplaceAux needle repl fuel (List.drop needle.length (c :: rest))
    else
      c :: pyReplaceAux needle repl fuel rest

/-- Python `str.replace(needle, repl)`: replace every occurrence, scanning left
to right (the needles used in the source are all non-empty). -/
def pyReplace (needle repl : PyStr) (s : PyStr) : PyStr :=
  pyReplaceAux needle repl s.length s

/-- Python `str.lower()` (ASCII case folding, which is all the source needs). -/
def pyLower (s : PyStr) : PyStr := s.map Char.toLower

/-- Fuel-driven decimal-digit worker for `natRepr` (`fuel ≥ n` always
suffices, one unit per removed decimal digit). -/
def natReprAux : Nat → Nat → PyStr
  | 0, n => [Char.ofNat (48 + n % 10)]
  | fuel + 1, n =>
    if n < 10 then [Char.ofNat (48 + n)]
    else natReprAux fuel (n / 10) ++ [Char.ofNat (48 + n % 10)]

/-- Decimal representation of a natural number. -/
def natRepr (n : Nat) : PyStr := natReprAux n n

/-- Decimal representation of a Python integer. -/
def intRepr (n : Int) : PyStr :=
  if n < 0 then '-' :: natRepr n.natAbs else natRepr n.toNat

/-- Value of a non-empty all-digits string. -/
def digitsVal (ds : PyStr) : Option Nat :=
  if ds ≠ [] ∧ ds.all (·.isDigit) then
    some (ds.foldl (fun a c => a * 10 + (c.toNat - 48)) 0)
  else none

/-- Python `int(str)`: strips surrounding whitespace, accepts an optional sign
followed by at least one digit, raises `ValueError` (here: `none`) otherwise.
(Digit-group underscores cannot occur at the call sites modelled here, since
the argument is always a chunk of a `split('_')`.) -/
def pyIntParse (s : PyStr) : Option Int :=
  match pyStrip s with
  | '-' :: ds => (digitsVal ds).map (fun n => -(n : Int))
  | '+' :: ds => (digitsVal ds).map (fun n => (n : Int))
  | ds => (digitsVal ds).map (fun n => (n : Int))

/-- JSON/Python values as they flow through the pipeline.  JSON numbers are
modelled as integers (no float ever matters to the checked properties);
a Python `None` — whether a JSON `null` or the result of a failed lookup —
is `jnull`. -/
inductive JValue where
  | jnull
  | jbool (b : Bool)
  | jint (n : Int)
  | jstr (s : PyStr)
  | jarr (xs : List JValue)
  | jobj (fields : List (PyStr × JValue))

/-- Python truthiness of a value. -/
def JValue.truthy : JValue → Bool
  | .jnull => false
  | .jbool b => b
  | .jint n => n ≠ 0
  | .jstr s => !s.isEmpty
  | .jarr xs => !xs.isEmpty
  | .jobj fs => !fs.isEmpty

/-- Python `dict.get(k)` distinguishing a missing key (`none`) from a present
value. -/
def rawGet (fields : List (PyStr × JValue)) (k : PyStr) : Option JValue :=
  (fields.find? (fun p => p.1 = k)).map Prod.snd

/-- Python `dict.get(k)` as seen by the callers that treat a missing key and a
JSON `null` alike: both are the Python value `None` (`jnull`). -/
def pyGet (fields : List (PyStr × JValue)) (k : PyStr) : JValue :=
  (rawGet fields k).getD .jnull

/-- Python `x or y`. -/
def pyOr (x y : JValue) : JValue := if x.truthy then x else y

/-- Boolean test for the Python value `None`. -/
def JValue.isNull : JValue → Bool
  | .jnull => true
  | _ => false

mutual
/-- Python `repr` of a value (used by `str` on containers).  Its exact text is
never load-bearing for the checked properties — only that it is a non-blank
string for containers — but it is rendered faithfully enough. -/
def pyReprOf : JValue → PyStr
  | .jnull => pys "None"
  | .jbool b => if b then pys "True" else pys "False"
  | .jint n => intRepr n
  | .jstr s => '\'' :: (s ++ ['\''])
  | .jarr xs => '[' :: (pyReprList xs ++ [']'])
  | .jobj fs => '\x7b' :: (pyReprFields fs ++ ['\x7d'])

/-- Comma-joined `repr`s of the elements of a list. -/
def pyReprList : List JValue → PyStr
  | [] => []
  | [x] => pyReprOf x
  | x :: y :: xs => pyReprOf x ++ pys ", " ++ pyReprList (y :: xs)

/-- Comma-joined `repr`s of the entries of a dict. -/
def pyReprFields : List (PyStr × JValue) → PyStr
  | [] => []
  | [(k, v)] => '\'' :: (k ++ pys "': ") ++ pyReprOf v
  | (k, v) :: f :: fs =>
    '\'' :: (k ++ pys "': ") ++ pyReprOf v ++ pys ", " ++ pyReprFields (f :: fs)
end

/-- Python `str(value)`. -/
def pyStrOf : JValue → PyStr
  | .jnull => pys "None"
  | .jbool b => if b then pys "True" else pys "False"
  | .jint n => intRepr n
  | .jstr s => s
  | .jarr xs => pyReprOf (.jarr xs)
  | .jobj fs => pyReprOf (.jobj fs)

example : pySplit '_' (pys "row_5_extra") = [pys "row", pys "5", pys "extra"] := by decide
example : pyIntParse (pys " 42 ") = some 42 := by decide
example : pyIntParse (pys "5_extra") = none := by decide
example : pyIntParse (pys "") = none := by decide
example : pyStrip (pys "  a b ") = pys "a b" := by decide

/-! ## `utils/helpers.py` — the field mapper -/

/-- The Python values `extract_company_data` can store for a field:
`None`, an int (Python `bool`s, being `int` subclasses, are modelled by their
integer value) or a string. -/
inductive PyVal where
  | vnone
  | vint (n : Int)
  | vstr (s : PyStr)
deriving DecidableEq, Repr

/-- Python truthiness of a mapped value. -/
def PyVal.truthy : PyVal → Bool
  | .vnone => false
  | .vint n => n ≠ 0
  | .vstr s => !s.isEmpty

/-- The character filter done by
`cleaned.replace(',', '').replace('$', '').replace('%', '')` in
`safe_convert_for_display`. -/
def cleanNumericChars (s : PyStr) : PyStr :=
  s.filter (fun c => c ≠ ',' ∧ c ≠ '$' ∧ c ≠ '%')

/-- `helpers.safe_convert_for_display(value, target_type)` (lines 93–132).
`targetNumeric = true` models `target_type == "numeric"`.
`pd.to_numeric(..., errors='coerce')` is modelled for integer-valued strings
(floats never reach the properties checked here).  The Python function
returns a `bool` unchanged in the numeric `isinstance` branch; a `bool` being
an `int` of the same value, it is modelled as that integer. -/
def safe_convert_for_display (value : JValue) (targetNumeric : Bool) : PyVal :=
  -- `if value is None or (isinstance(value, float) and np.isnan(value))`
  match value with
  | .jnull => if targetNumeric then .vnone else .vstr []
  | _ =>
    -- `if value == "" or str(value).strip() == ""`
    if (match value with | .jstr s => s.isEmpty | _ => false)
        || (pyStrip (pyStrOf value)).isEmpty then
      if targetNumeric then .vnone else .vstr []
    else if targetNumeric then
      match value with
      | .jint n => .vint n                          -- `isinstance(value, (int, float))`
      | .jbool b => .vint (if b then 1 else 0)      -- Python bool is an int
      | _ =>
        match pyIntParse (cleanNumericChars (pyStrip (pyStrOf value))) with
        | some n => .vint n
        | none => .vnone                            -- `pd.isna(numeric_val)`
    else
      match value with
      | .jarr xs =>                                  -- `', '.join(str(item) ...)`
        .vstr (List.intercalate (pys ", ")
          ((xs.filter (fun x => !x.isNull)).map pyStrOf))
      | _ =>
        let r := pyStrip (pyStrOf value)
        if r ≠ [] ∧ r ≠ pys "nan" ∧ r ≠ pys "None" then .vstr r else .vstr []

/-- `helpers.get_default_value(data_type)` (lines 25–26): `None` for numeric
keys, `""` for the rest. -/
def get_default_value (numeric : Bool) : PyVal :=
  if numeric then .vnone else .vstr []

/-- Python `int(x)` on an arbitrary value: `TypeError` (`none`) except for
ints, bools and parseable strings. -/
def pyIntOf : JValue → Option Int
  | .jint n => some n
  | .jbool b => some (if b then 1 else 0)
  | .jstr s => pyIntParse s
  | _ => none

/-- `helpers.calculate_company_size(employee_count)` (lines 28–39): the size
bucket of an employee count; `''` when `int(employee_count)` raises. -/
def calculate_company_size (employee_count : JValue) : PyStr :=
  match pyIntOf employee_count with
  | none => []
  | some count =>
    if count ≤ 10 then pys "1-10"
    else if count ≤ 50 then pys "11-50"
    else if count ≤ 200 then pys "51-200"
    else if count ≤ 1000 then pys "201-1000"
    else if count ≤ 5000 then pys "1001-5000"
    else if count ≤ 10000 then pys "5001-10000"
    else pys "10000+"

/-- `helpers.format_linkedin_url(url)` (lines 60–90) on a string input
(its `not isinstance(url, str)` guard is subsumed: the one call site always
passes a string, and an empty string falls to the first guard). -/
def format_linkedin_url (url : PyStr) : PyStr :=
  if url.isEmpty then []
  else
    let clean := pyStrip url
    if containsSub (pys "linkedin.com/company") clean then
      -- remove query parameters
      let c1 := splitHead '?' clean
      -- ensure it ends with a slash
      let c2 := if pyEndsWith c1 '/' then c1 else c1 ++ ['/']
      -- ensure it uses https and www
      let c3 := if (pys "http://").isPrefixOf c2
                then pyReplace (pys "http://") (pys "https://") c2 else c2
      let c4 := if (pys "https://").isPrefixOf c3 then c3 else pys "https://" ++ c3
      if containsSub (pys "www.") c4 then c4
      else pyReplace (pys "https://") (pys "https://www.") c4
    else if ¬ ('/' ∈ clean) then
      pys "https://www.linkedin.com/company/" ++ clean ++ ['/']
    else url

/-- The canonical company-URL shape the spec describes:
`https://www.linkedin.com/company/<slug>/`. -/
def canonicalCompanyUrl (slug : PyStr) : PyStr :=
  pys "https://www.linkedin.com/company/" ++ slug ++ ['/']

example : format_linkedin_url (pys "google") = canonicalCompanyUrl (pys "google") := by decide
example : format_linkedin_url (pys "http://linkedin.com/company/foo")
    = canonicalCompanyUrl (pys "foo") := by decide
example : format_linkedin_url (format_linkedin_url (pys "a?b"))
    ≠ format_linkedin_url (pys "a?b") := by decide

/-- The exceptions that can escape `extract_company_data`: an
`AttributeError` (e.g. `.startswith` on a non-string `externalID`, or `.get`
on a non-dict record) or a `TypeError` (iterating a non-list `companies`);
neither is in its `except (ValueError, IndexError)` clause. -/
inductive PyErr where
  | attributeError
  | typeError
deriving DecidableEq, Repr

/-- The per-key resolution step of `extract_company_data` (lines 181–206):
pick the raw vendor value for one requested logical key. -/
def extractValue (fields : List (PyStr × JValue)) (key : PyStr) : JValue :=
  if key = pys "linkedin" then
    -- `company.get('linkedinURL') or company.get('linkedInURL')`
    pyOr (pyGet fields (pys "linkedinURL")) (pyGet fields (pys "linkedInURL"))
  else if key = pys "website" then
    -- `websites_list = company.get('websites', [])`; head if a non-empty list
    match (rawGet fields (pys "websites")).getD (.jarr []) with
    | .jarr (w :: _) => w
    | _ => .jnull
  else if key = pys "employees" then pyGet fields (pys "employeeCount")
  else if key = pys "size" then
    -- `calculate_company_size(emp_count) if emp_count else ""`
    let empCount := pyGet fields (pys "employeeCount")
    if empCount.truthy then .jstr (calculate_company_size empCount) else .jstr []
  else pyGet fields key

/-- The full mapping of one requested key against one vendor record
(lines 181–216): resolution, type coercion, then the LinkedIn URL
canonicalization pass. -/
def mapKey (fields : List (PyStr × JValue)) (key : PyStr) : PyVal :=
  let value := extractValue fields key
  let conv :=
    if key = pys "employees" ∨ key = pys "founded" then
      safe_convert_for_display value true
    else
      safe_convert_for_display value false
  if key = pys "linkedin" ∧ conv.truthy then
    match conv with
    | .vstr s => .vstr (format_linkedin_url s)
    | v => v
  else conv

/-- One iteration of the company loop of `extract_company_data`
(lines 172–220): `.ok none` models a silent `continue` (record dropped, the
`except (ValueError, IndexError)` clause included), `.ok (some (i, data))` a
record stored under row index `i`, `.error` an uncaught exception. -/
def processCompany (selected : List PyStr) (company : JValue) :
    Except PyErr (Option (Int × List (PyStr × PyVal))) :=
  match company with
  | .jobj fields =>
    let e := pyGet fields (pys "externalID")
    -- `if not external_id or not external_id.startswith('row_'): continue`
    if ¬ e.truthy then .ok none
    else
      match e with
      | .jstr s =>
        if ¬ (pys "row_").isPrefixOf s then .ok none
        else
          -- `row_index = int(external_id.split('_')[1])`
          match (pySplit '_' s).get? 1 with
          | none => .ok none                    -- IndexError, caught
          | some part =>
            match pyIntParse part with
            | none => .ok none                  -- ValueError, caught
            | some i => .ok (some (i, selected.map (fun k => (k, mapKey fields k))))
      | _ => .error .attributeError             -- `.startswith` on a non-string
  | _ => .error .attributeError                 -- `.get` on a non-dict record

/-- The company loop of `extract_company_data`: processes records in order,
accumulating stored entries; the first uncaught exception aborts the whole
extraction. -/
def extractLoop (selected : List PyStr) :
    List JValue → Except PyErr (List (Int × List (PyStr × PyVal)))
  | [] => .ok []
  | c :: cs => do
    let r ← processCompany selected c
    let rest ← extractLoop selected cs
    match r with
    | none => pure rest
    | some entry => pure (entry :: rest)

/-- `helpers.extract_company_data(enrichment_result, selected_data_points_keys)`
(lines 162–222).  The result models the Python dict keyed by row index as an
association list in insertion order (duplicate row indices, which Python's
dict would collapse to the last entry, do not occur in the checked
properties). -/
def extract_company_data (enrichment_result : JValue) (selected : List PyStr) :
    Except PyErr (List (Int × List (PyStr × PyVal))) :=
  match enrichment_result with
  | .jobj topFields =>
    -- `companies = enrichment_result.get('companies', [])`
    let companies := (rawGet topFields (pys "companies")).getD (.jarr [])
    if ¬ companies.truthy then .ok []           -- `if not companies: return {}`
    else
      match companies with
      | .jarr cs => extractLoop selected cs
      | _ => .error .typeError                  -- `for company in companies`
  | _ => .error .attributeError

example :
    extract_company_data
      (.jobj [(pys "companies",
        .jarr [.jobj [(pys "externalID", .jstr (pys "row_0")),
                      (pys "name", .jstr (pys "Acme"))]])])
      [pys "name"]
    = .ok [(0, [(pys "name", .vstr (pys "Acme"))])] := rfl

example :
    extract_company_data
      (.jobj [(pys "companies",
        .jarr [.jobj [(pys "externalID", .jint 123)],
               .jobj [(pys "externalID", .jstr (pys "row_1"))]])])
      [pys "name"]
    = .error .attributeError := rfl

example :
    extract_company_data
      (.jobj [(pys "companies",
        .jarr [.jobj [(pys "externalID", .jstr (pys "row_5_extra"))]])])
      [pys "name"]
    = .ok [(5, [(pys "name", .vstr [])])] := rfl

/-! ## `utils/api_client.py` — transport and retry -/

/-- What one wire-level request attempt can yield: a response with a status,
an optional parsed `Retry-After` header and a body (`none` = non-JSON body),
or a network-level exception. -/
inductive NetOutcome where
  | resp (status : Nat) (retryAfter : Option Nat) (body : Option JValue)
  | timeout
  | connError

/-- What `self.session.post/get` hands back to the calling helper: a response
object, or one of the raised exceptions. `raiseRetryExhausted` is
`urllib3`'s `MaxRetryError` (surfacing as `requests.exceptions.RetryError`)
after the adapter's status retries run out. -/
inductive SendResult where
  | ok (status : Nat) (retryAfter : Option Nat) (body : Option JValue)
  | raiseTimeout
  | raiseConn
  | raiseRetryExhausted

/-- The `status_forcelist=[429, 500, 502, 503, 504]` of the `Retry` strategy
(api_client.py lines 35–39). -/
def forcelist (st : Nat) : Bool :=
  st = 429 ∨ st = 500 ∨ st = 502 ∨ st = 503 ∨ st = 504

/-- A `session.get` through the mounted
`HTTPAdapter(max_retries=Retry(total=3, status_forcelist=[429,500,502,503,504]))`:
GET is in `urllib3`'s default `allowed_methods`, so a forcelisted status is
retried while retries remain and raises `MaxRetryError` once they are
exhausted (`raise_on_status` defaults to true).  Returns the number of wire
requests issued alongside the result; an exhausted outcome stream counts as a
connection failure.  Connection-level retries are not modelled — the checked
properties concern status-code behaviour. -/
def adapterGet (outcomes : List NetOutcome) (retriesLeft : Nat) : Nat × SendResult :=
  match outcomes with
  | [] => (0, .raiseConn)
  | .timeout :: _ => (1, .raiseTimeout)
  | .connError :: _ => (1, .raiseConn)
  | .resp st ra body :: rest =>
    if forcelist st then
      match retriesLeft with
      | 0 => (1, .raiseRetryExhausted)
      | r + 1 =>
        let (n, res) := adapterGet rest r
        (n + 1, res)
    else (1, .ok st ra body)

/-- A `session.post` through the same adapter: POST is not in `urllib3`'s
default `allowed_methods` (it is not idempotent), so the adapter performs no
status-based retry at all — the response, a 429 included, is returned to the
caller. -/
def adapterPost (outcomes : List NetOutcome) : Nat × SendResult :=
  match outcomes with
  | [] => (0, .raiseConn)
  | .timeout :: _ => (1, .raiseTimeout)
  | .connError :: _ => (1, .raiseConn)
  | .resp st ra body :: _ => (1, .ok st ra body)

/-- The user-facing messages `_post`/`_get` emit (`st.warning`/`st.error`),
which are the only place the error kind survives: the functions themselves
return `None` on every failure. -/
inductive UiMsg where
  | rateLimitWait (secs : Nat)
  | timeoutMsg
  | connMsg
  | authInvalidKey
  | authAccessDenied
  | httpError (status : Nat) (body : Option JValue)
  | unexpected

/-- `SurfeApiClient._post` (api_client.py lines 58–95) over a stream of wire
outcomes, with fuel bounding the *unbounded* manual 429 recursion of lines
70–74.  Result: requests issued, messages emitted, and `some ret` when the
Python function returned (`ret = none` being Python `None`) or `none` when
the fuel ran out inside the 429 recursion. -/
def postRun : Nat → List NetOutcome → Nat × List UiMsg × Option (Option JValue)
  | 0, _ => (0, [], none)
  | fuel + 1, outcomes =>
    let (n, res) := adapterPost outcomes
    match res with
    | .ok st ra body =>
      if st = 429 then
        -- `retry_after = int(response.headers.get('Retry-After', 60))`
        -- `time.sleep(retry_after); return self._post(endpoint, ...)`
        let (n2, msgs, out) := postRun fuel (outcomes.drop n)
        (n + n2, .rateLimitWait (ra.getD 60) :: msgs, out)
      else if 400 ≤ st ∧ st ≤ 599 then       -- `response.raise_for_status()`
        if st = 401 then (n, [.authInvalidKey], some none)
        else if st = 403 then (n, [.authAccessDenied], some none)
        else (n, [.httpError st body], some none)
      else
        match body with
        | some j => (n, [], some (some j))    -- `return response.json()`
        | none => (n, [.unexpected], some none)  -- `.json()` raised, generic except
    | .raiseTimeout => (n, [.timeoutMsg], some none)
    | .raiseConn => (n, [.connMsg], some none)
    | .raiseRetryExhausted => (n, [.unexpected], some none)

/-- `SurfeApiClient._get` (api_client.py lines 97–133): identical shape to
`_post`, but sent through the adapter's GET path, where forcelisted statuses
are retried and never returned — so its own manual 429 branch is
unreachable. -/
def getRun : Nat → List NetOutcome → Nat × List UiMsg × Option (Option JValue)
  | 0, _ => (0, [], none)
  | fuel + 1, outcomes =>
    let (n, res) := adapterGet outcomes 3
    match res with
    | .ok st ra body =>
      if st = 429 then
        let (n2, msgs, out) := getRun fuel (outcomes.drop n)
        (n + n2, .rateLimitWait (ra.getD 60) :: msgs, out)
      else if 400 ≤ st ∧ st ≤ 599 then
        if st = 401 then (n, [.authInvalidKey], some none)
        else if st = 403 then (n, [.authAccessDenied], some none)
        else (n, [.httpError st body], some none)
      else
        match body with
        | some j => (n, [], some (some j))
        | none => (n, [.unexpected], some none)
    | .raiseTimeout => (n, [.timeoutMsg], some none)
    | .raiseConn => (n, [.connMsg], some none)
    | .raiseRetryExhausted => (n, [.unexpected], some none)

/-- A persistent rate-limit response. -/
def r429 : NetOutcome := .resp 429 none (some (.jobj []))

example : (postRun 5 (List.replicate 4 r429 ++ [.resp 200 none (some (.jobj []))])).1 = 5 := rfl
example : (getRun 1 (List.replicate 4 r429)).1 = 4 := rfl
example : (getRun 1 (List.replicate 4 r429)).2.2 = some none := rfl

/-! ## `SurfeApiClient.get_enrichment_results` — the job poller

Time is discrete, as in the spec: a poll is instantaneous, the inter-poll
wait is 10 units, so the iteration with poll counter `count` starts at
elapsed time `10 * count`, and the `while time.time() - start_time < max_wait`
guard admits exactly the iterations with `10 * count < max_wait` — that is,
`ceil(max_wait / 10)` iterations. -/

/-- The one terminal outcome of a polling session.  The Python function
returns the payload for `completed` and `None` otherwise; which case was hit
survives only in the progress/status messages, which the constructors record
(`timedOut` carries the job id that line 203 surfaces). -/
inductive PollOutcome where
  | completed (payload : JValue)
  | getFailed
  | jobFailed (message : JValue)
  | cancelled
  | timedOut (jobId : PyStr)
  | errorDuring

/-- `result.get('status', 'processing').lower()` (line 168): `.error ()` when
the attribute chain raises (non-dict result, or a present-but-non-string
`status`, e.g. `None.lower()`). -/
def statusOf : JValue → Except Unit PyStr
  | .jobj fields =>
    match rawGet fields (pys "status") with
    | none => .ok (pyLower (pys "processing"))
    | some (.jstr s) => .ok (pyLower s)
    | some _ => .error ()
  | _ => .error ()

/-- `result.get('message', 'Unknown error')` of a failed job (line 180). -/
def failMessageOf : JValue → JValue
  | .jobj fields => (rawGet fields (pys "message")).getD (.jstr (pys "Unknown error"))
  | v => v

/-- A successful poll response that keeps the loop going: truthy, with a
status that is neither `completed` nor `failed`. -/
def pollNonTerminal (r : JValue) : Bool :=
  r.truthy &&
    match statusOf r with
    | .ok s => ¬ s = pys "completed" ∧ ¬ s = pys "failed"
    | .error _ => false

/-- A successful poll response carrying the `completed` status. -/
def pollCompleted (r : JValue) : Bool :=
  r.truthy &&
    match statusOf r with
    | .ok s => s = pys "completed"
    | .error _ => false

/-- The polling loop of `get_enrichment_results` (lines 154–205).
`itersLeft` is the number of loop iterations the time guard still admits
(see the section comment); `polls i` is what `self._get(url)` returns for
poll number `i` (`jnull` = Python `None`); `cancel i` is whether
`st.session_state.get('processing_status') == 'polling'` stops holding
during the wait after poll `i`.  Returns the outcome and the final
`poll_count`. -/
def pollerLoop (jobId : PyStr) (polls : Nat → JValue) (cancel : Nat → Bool) :
    Nat → Nat → PollOutcome × Nat
  | 0, count => (.timedOut jobId, count)
  | itersLeft + 1, count =>
    let result := polls count
    if ¬ result.truthy then (.getFailed, count + 1)   -- `if not result: return None`
    else
      match statusOf result with
      | .error _ => (.errorDuring, count + 1)         -- caught by `except Exception`
      | .ok st =>
        if st = pys "completed" then (.completed result, count + 1)
        else if st = pys "failed" then (.jobFailed (failMessageOf result), count + 1)
        else if cancel count then (.cancelled, count + 1)
        else pollerLoop jobId polls cancel itersLeft (count + 1)

/-- `SurfeApiClient.get_enrichment_results(job_id, max_wait=300)`
(lines 143–214) under the discrete-time model. -/
def get_enrichment_results (jobId : PyStr) (maxWait : Nat)
    (polls : Nat → JValue) (cancel : Nat → Bool) : PollOutcome × Nat :=
  pollerLoop jobId polls cancel ((maxWait + 9) / 10) 0

/-- A truthy `processing` poll response. -/
def processingResp : JValue := .jobj [(pys "status", .jstr (pys "processing"))]

/-- A truthy `completed` poll response with a payload. -/
def completedResp : JValue :=
  .jobj [(pys "status", .jstr (pys "completed")),
         (pys "companies", .jarr [])]

example :
    (get_enrichment_results (pys "j1") 300
      (fun i => if i < 2 then processingResp else completedResp)
      (fun _ => false)).2 = 3 := rfl

example :
    (get_enrichment_results (pys "j1") 300 (fun _ => processingResp)
      (fun _ => false)) = (.timedOut (pys "j1"), 30) := rfl

/-! ## `pages/2_Company_Search.py` — pagination gate and size filter -/

/-- `is_in_size_range(employee_count, size_range)` (page lines 11–30) for an
integer employee count (the `except (ValueError, TypeError)` clause only
matters for non-integer counts, which the checked property excludes). -/
def is_in_size_range (employee_count : Int) (size_range : PyStr) : Bool :=
  if size_range = pys "1-10" then 1 ≤ employee_count ∧ employee_count ≤ 10
  else if size_range = pys "11-50" then 11 ≤ employee_count ∧ employee_count ≤ 50
  else if size_range = pys "51-200" then 51 ≤ employee_count ∧ employee_count ≤ 200
  else if size_range = pys "201-1000" then 201 ≤ employee_count ∧ employee_count ≤ 1000
  else if size_range = pys "1001-5000" then 1001 ≤ employee_count ∧ employee_count ≤ 5000
  else if size_range = pys "5001-10000" then 5001 ≤ employee_count ∧ employee_count ≤ 10000
  else if size_range = pys "10000+" then 10000 < employee_count
  else false

/-- The pagination-relevant session state of the search page:
`st.session_state.next_page_token` (`jnull` = Python `None`) and
`st.session_state.total_results_loaded`. -/
structure SearchState where
  next_page_token : JValue
  total_results_loaded : Nat

/-- The gate on the only further-page fetch of the page (line 364):
`if st.session_state.next_page_token and st.session_state.total_results_loaded < 10000`
— the Load More button, and with it the next `search_companies` call, is
offered exactly under this condition. -/
def load_more_allowed (s : SearchState) : Bool :=
  s.next_page_token.truthy && s.total_results_loaded < 10000

/-- The message branch of lines 391–392: with no fetch offered,
`elif st.session_state.total_results_loaded >= 2000` shows
"Maximum 2000 results loaded". -/
def shows_cap_message (s : SearchState) : Bool :=
  ¬ load_more_allowed s = true && 2000 ≤ s.total_results_loaded

example : load_more_allowed ⟨.jstr (pys "tok"), 2000⟩ = true := by decide
example : is_in_size_range 7 (calculate_company_size (.jint 7)) = true := by decide

/-! ## Claims -/

/-- C1: the claim says that as soon as `total_results_loaded >= 2000` no
further page fetch is performed even if a continuation token is present.
The code's gate (page line 364) is `total_results_loaded < 10000`: at
`total = 2000` with a token present the Load More fetch is still offered,
the page's own "Maximum 2000 results loaded" branch (lines 391–392) is not
shown, and the gate only closes at 10000 — contradicting the page's own
cap-of-2000 texts (lines 49, 392, 491, 519). -/
theorem C1_cap_gate_is_10000 :
    load_more_allowed ⟨.jstr (pys "tok"), 2000⟩ = true ∧
    shows_cap_message ⟨.jstr (pys "tok"), 2000⟩ = false ∧
    load_more_allowed ⟨.jstr (pys "tok"), 10000⟩ = false ∧
    shows_cap_message ⟨.jstr (pys "tok"), 10000⟩ = true := by decide

/-- C9: for every integer employee count `n ≥ 1`, the size-range filter of the
search page accepts `n` for the bucket that `calculate_company_size` derives
from `n` itself. -/
theorem C9_bucket_filter_agree (n : Int) (h : 1 ≤ n) :
    is_in_size_range n (calculate_company_size (.jint n)) = true := by
  have hcs : calculate_company_size (.jint n)
      = if n ≤ 10 then pys "1-10"
        else if n ≤ 50 then pys "11-50"
        else if n ≤ 200 then pys "51-200"
        else if n ≤ 1000 then pys "201-1000"
        else if n ≤ 5000 then pys "1001-5000"
        else if n ≤ 10000 then pys "5001-10000"
        else pys "10000+" := rfl
  rw [hcs]
  unfold is_in_size_range
  by_cases h10 : n ≤ 10
  · rw [if_pos h10, if_pos rfl]
    simp only [decide_eq_true_eq]
    omega
  · rw [if_neg h10]
    by_cases h50 : n ≤ 50
    · rw [if_pos h50, if_neg (by decide), if_pos rfl]
      simp only [decide_eq_true_eq]
      omega
    · rw [if_neg h50]
      by_cases h200 : n ≤ 200
      · rw [if_pos h200, if_neg (by decide), if_neg (by decide), if_pos rfl]
        simp only [decide_eq_true_eq]
        omega
      · rw [if_neg h200]
        by_cases h1000 : n ≤ 1000
        · rw [if_pos h1000, if_neg (by decide), if_neg (by decide), if_neg (by decide),
            if_pos rfl]
          simp only [decide_eq_true_eq]
          omega
        · rw [if_neg h1000]
          by_cases h5000 : n ≤ 5000
          · rw [if_pos h5000, if_neg (by decide), if_neg (by decide), if_neg (by decide),
              if_neg (by decide), if_pos rfl]
            simp only [decide_eq_true_eq]
            omega
          · rw [if_neg h5000]
            by_cases h10000 : n ≤ 10000
            · rw [if_pos h10000, if_neg (by decide), if_neg (by decide), if_neg (by decide),
                if_neg (by decide), if_neg (by decide), if_pos rfl]
              simp only [decide_eq_true_eq]
              omega
            · rw [if_neg h10000, if_neg (by decide), if_neg (by decide), if_neg (by decide),
                if_neg (by decide), if_neg (by decide), if_neg (by decide), if_pos rfl]
              simp only [decide_eq_true_eq]
              omega

/-- Witness for C9 at `n = 7`. -/
theorem C9_bucket_filter_agree_witness :
    (1 : Int) ≤ 7 ∧ is_in_size_range 7 (calculate_company_size (.jint 7)) = true :=
  ⟨by decide, C9_bucket_filter_agree 7 (by decide)⟩

/-- The adapter's GET path issues at most `retriesLeft + 1` wire requests, and
any response it actually hands back has a status outside the forcelist. -/
theorem adapterGet_spec (outcomes : List NetOutcome) :
    ∀ r : Nat, (adapterGet outcomes r).1 ≤ r + 1 ∧
      ∀ st ra b, (adapterGet outcomes r).2 = .ok st ra b → forcelist st = false := by
  induction outcomes with
  | nil =>
    intro r
    exact ⟨Nat.zero_le _, fun st ra b h => by cases h⟩
  | cons o rest ih =>
    intro r
    cases o with
    | timeout => exact ⟨by simp [adapterGet], fun st ra b h => by cases h⟩
    | connError => exact ⟨by simp [adapterGet], fun st ra b h => by cases h⟩
    | resp st' ra' b' =>
      by_cases hf : forcelist st' = true
      · cases r with
        | zero =>
          refine ⟨by simp [adapterGet, hf], fun st ra b h => ?_⟩
          simp [adapterGet, hf] at h
        | succ r' =>
          have hrec := ih r'
          refine ⟨?_, ?_⟩
          · have : (adapterGet (NetOutcome.resp st' ra' b' :: rest) (r' + 1)).1
                = (adapterGet rest r').1 + 1 := by
              simp [adapterGet, hf]
            omega
          · intro st ra b h
            have : (adapterGet (NetOutcome.resp st' ra' b' :: rest) (r' + 1)).2
                = (adapterGet rest r').2 := by
              simp [adapterGet, hf]
            rw [this] at h
            exact hrec.2 st ra b h
      · have hf' : forcelist st' = false := by
          cases hx : forcelist st'
          · rfl
          · exact absurd hx hf
        refine ⟨by simp [adapterGet, hf'], fun st ra b h => ?_⟩
        simp [adapterGet, hf'] at h
        rw [← h.1]
        exact hf'

/-- A `_get` call (any positive fuel) issues at most 4 wire requests — the
initial attempt plus the `Retry(total=3)` budget — and always returns to its
caller (its manual 429 recursion is unreachable, since the adapter never
hands a forcelisted status back on the GET path). -/
theorem getRun_bounded (outcomes : List NetOutcome) (fuel : Nat) :
    (getRun (fuel + 1) outcomes).1 ≤ 4 ∧
      (getRun (fuel + 1) outcomes).2.2.isSome = true := by
  have hspec := adapterGet_spec outcomes 3
  rcases hag : adapterGet outcomes 3 with ⟨n, res⟩
  rw [hag] at hspec
  have hn : n ≤ 4 := hspec.1
  cases res with
  | ok st ra body =>
    have hfl : forcelist st = false := hspec.2 st ra body rfl
    have h429 : ¬ st = 429 := by
      intro h
      rw [h] at hfl
      simp [forcelist] at hfl
    cases body with
    | some j =>
      simp_all [getRun, hag, h429]
      split_ifs <;> simp_all
    | none =>
      simp_all [getRun, hag, h429]
      split_ifs <;> simp_all
  | raiseTimeout => simp [getRun, hag, hn]
  | raiseConn => simp [getRun, hag, hn]
  | raiseRetryExhausted => simp [getRun, hag, hn]

/-- On a stream of nothing but 429 responses, `_post` issues one wire request
per unit of fuel and never returns: its manual rate-limit recursion
(api_client.py lines 70–74) has no attempt counter, so the request count for
one logical POST call is unbounded. -/
theorem postRun_unbounded_on_429 (fuel : Nat) :
    (postRun fuel (List.replicate fuel r429)).1 = fuel ∧
      (postRun fuel (List.replicate fuel r429)).2.2 = none := by
  induction fuel with
  | zero => exact ⟨rfl, rfl⟩
  | succ k ih =>
    rw [List.replicate_succ]
    have hstep : postRun (k + 1) (r429 :: List.replicate k r429)
        = (1 + (postRun k (List.replicate k r429)).1,
           .rateLimitWait 60 :: (postRun k (List.replicate k r429)).2.1,
           (postRun k (List.replicate k r429)).2.2) := by
      simp [postRun, adapterPost, r429]
    rw [hstep]
    exact ⟨by simp [ih.1]; omega, ih.2⟩

/-- C2 counterexample: the claim bounds one logical transport send by 3
attempts even under persistent 429s; here a single `_post` call, facing four
429 responses then a 200, issues 5 wire requests before returning the
payload. -/
theorem C2_counterexample :
    (postRun 5 (List.replicate 4 r429 ++ [.resp 200 none (some (.jobj []))])).1 = 5 ∧
    3 < (postRun 5 (List.replicate 4 r429 ++ [.resp 200 none (some (.jobj []))])).1 ∧
    (postRun 5 (List.replicate 4 r429 ++ [.resp 200 none (some (.jobj []))])).2.2
      = some (some (.jobj [])) := ⟨rfl, by decide, rfl⟩

/-- C2 amended: the transport retries on the statuses {429, 500, 502, 503,
504} only through the adapter, whose GET path issues at most 4 wire requests
(1 + `Retry(total=3)`) per call; the POST path is not status-retried by the
adapter, and `_post`'s own 429 handler recurses with no attempt counter, so a
POST facing only 429s issues one request per available step and never
finishes on its own. -/
theorem C2_retry_budget (outcomes : List NetOutcome) (fuel : Nat) :
    ((getRun (fuel + 1) outcomes).1 ≤ 4 ∧
      (getRun (fuel + 1) outcomes).2.2.isSome = true) ∧
    ((postRun fuel (List.replicate fuel r429)).1 = fuel ∧
      (postRun fuel (List.replicate fuel r429)).2.2 = none) :=
  ⟨getRun_bounded outcomes fuel, postRun_unbounded_on_429 fuel⟩

/-- C5 counterexample: the claim says the transport returns a typed failure
the caller can inspect, with the HTTP case carrying status code and body.
The caller-visible return is Python `None` for a local timeout and for an
HTTP 500 alike — the return value distinguishes nothing and carries neither
status nor body. -/
theorem C5_counterexample :
    (postRun 1 [NetOutcome.timeout]).2.2 = some none ∧
    (postRun 1 [NetOutcome.resp 500 none (some (.jobj []))]).2.2 = some none ∧
    (postRun 1 [NetOutcome.timeout]).2.2
      = (postRun 1 [NetOutcome.resp 500 none (some (.jobj []))]).2.2 :=
  ⟨rfl, rfl, rfl⟩

/-- C5 amended: a transport send never raises for expected 4xx/5xx — every
failure returns the value `None` to the caller — and the error kinds
(Timeout, ConnectionFailure, HTTP error with status code and body, malformed
JSON body) are distinguished only in the emitted user-facing message, not in
the returned value. -/
theorem C5_typed_failure_in_messages (st : Nat) (ra : Option Nat) (b : Option JValue)
    (rest : List NetOutcome)
    (h4 : 400 ≤ st) (h5 : st ≤ 599) (h429 : st ≠ 429) (h401 : st ≠ 401) (h403 : st ≠ 403) :
    postRun 1 (NetOutcome.timeout :: rest) = (1, [.timeoutMsg], some none) ∧
    postRun 1 (NetOutcome.connError :: rest) = (1, [.connMsg], some none) ∧
    postRun 1 (NetOutcome.resp st ra b :: rest) = (1, [.httpError st b], some none) ∧
    postRun 1 (NetOutcome.resp 200 ra none :: rest) = (1, [.unexpected], some none) := by
  refine ⟨rfl, rfl, ?_, rfl⟩
  simp [postRun, adapterPost, h429, h401, h403, h4, h5]

/-- Witness for C5 at status 500 with a JSON body. -/
theorem C5_typed_failure_in_messages_witness :
    postRun 1 [NetOutcome.timeout] = (1, [.timeoutMsg], some none) ∧
    postRun 1 [NetOutcome.connError] = (1, [.connMsg], some none) ∧
    postRun 1 [NetOutcome.resp 500 none (some (.jobj []))]
      = (1, [.httpError 500 (some (.jobj []))], some none) ∧
    postRun 1 [NetOutcome.resp 200 none none] = (1, [.unexpected], some none) :=
  C5_typed_failure_in_messages 500 none (some (.jobj [])) []
    (by decide) (by decide) (by decide) (by decide) (by decide)

/-- Unfolding equation for one admitted iteration of the polling loop. -/
theorem pollerLoop_succ (jobId : PyStr) (polls : Nat → JValue) (cancel : Nat → Bool)
    (itersLeft count : Nat) :
    pollerLoop jobId polls cancel (itersLeft + 1) count
      = (if ¬ (polls count).truthy then (.getFailed, count + 1)
        else
          match statusOf (polls count) with
          | .error _ => (.errorDuring, count + 1)
          | .ok st =>
            if st = pys "completed" then (.completed (polls count), count + 1)
            else if st = pys "failed" then
              (.jobFailed (failMessageOf (polls count)), count + 1)
            else if cancel count then (.cancelled, count + 1)
            else pollerLoop jobId polls cancel itersLeft (count + 1)) := rfl

/-- A non-terminal, never-cancelled polling prefix: the loop keeps recursing.
Shared stepping lemma for the poller claims. -/
theorem pollerLoop_step (jobId : PyStr) (polls : Nat → JValue) (cancel : Nat → Bool)
    (itersLeft count : Nat)
    (hnt : pollNonTerminal (polls count) = true) (hc : cancel count = false) :
    pollerLoop jobId polls cancel (itersLeft + 1) count
      = pollerLoop jobId polls cancel itersLeft (count + 1) := by
  unfold pollNonTerminal at hnt
  rcases hand : (polls count).truthy with _ | _
  · rw [hand] at hnt
    simp at hnt
  · rw [hand] at hnt
    simp only [Bool.true_and] at hnt
    cases hst : statusOf (polls count) with
    | error e => rw [hst] at hnt; simp at hnt
    | ok s =>
      rw [hst] at hnt
      simp only [decide_eq_true_eq] at hnt
      rw [pollerLoop_succ, hand, hst]
      simp only [not_true, if_false]
      rw [if_neg hnt.1, if_neg hnt.2, if_neg (by rw [hc]; exact Bool.false_ne_true)]

/-- With every admitted iteration non-terminal and never cancelled, the
polling loop exhausts its iteration budget and times out, surfacing the job
id. -/
theorem pollerLoop_timeout (jobId : PyStr) (polls : Nat → JValue) (cancel : Nat → Bool)
    (hnt : ∀ i, pollNonTerminal (polls i) = true) (hc : ∀ i, cancel i = false) :
    ∀ n count, pollerLoop jobId polls cancel n count = (.timedOut jobId, count + n) := by
  intro n
  induction n with
  | zero => intro count; simp [pollerLoop]
  | succ m ih =>
    intro count
    rw [pollerLoop_step jobId polls cancel m count (hnt count) (hc count), ih (count + 1)]
    exact congrArg _ (by omega)

/-- C4: on a poll-response stream that never reaches a terminal status (and
with no cancellation signal), `get_enrichment_results` with the default
300-unit budget performs exactly 30 polls, terminates, and returns the
TimedOut outcome carrying the job id. -/
theorem C4_poller_times_out (jobId : PyStr) (polls : Nat → JValue) (cancel : Nat → Bool)
    (hnt : ∀ i, pollNonTerminal (polls i) = true) (hc : ∀ i, cancel i = false) :
    get_enrichment_results jobId 300 polls cancel = (.timedOut jobId, 30) := by
  unfold get_enrichment_results
  exact pollerLoop_timeout jobId polls cancel hnt hc 30 0

/-- Witness for C4: an always-`processing` transport. -/
theorem C4_poller_times_out_witness :
    get_enrichment_results (pys "job-42") 300 (fun _ => processingResp) (fun _ => false)
      = (.timedOut (pys "job-42"), 30) :=
  C4_poller_times_out (pys "job-42") (fun _ => processingResp) (fun _ => false)
    (fun _ => rfl) (fun _ => rfl)

/-- If the first `k` relative polls are non-terminal, poll `k` is `completed`
and nothing is cancelled, the loop returns that completed payload after
exactly `k + 1` polls. -/
theorem pollerLoop_completes (jobId : PyStr) (polls : Nat → JValue) (cancel : Nat → Bool)
    (hc : ∀ i, cancel i = false) :
    ∀ k n count, k < n →
      (∀ i, i < k → pollNonTerminal (polls (count + i)) = true) →
      pollCompleted (polls (count + k)) = true →
      pollerLoop jobId polls cancel n count = (.completed (polls (count + k)), count + k + 1) := by
  intro k
  induction k with
  | zero =>
    intro n count hn _ hcomp
    cases n with
    | zero => omega
    | succ m =>
      simp only [Nat.add_zero] at hcomp ⊢
      unfold pollCompleted at hcomp
      rcases hand : (polls count).truthy with _ | _
      · rw [hand] at hcomp; simp at hcomp
      · rw [hand] at hcomp
        simp only [Bool.true_and] at hcomp
        cases hst : statusOf (polls count) with
        | error e => rw [hst] at hcomp; simp at hcomp
        | ok s =>
          rw [hst] at hcomp
          simp only [decide_eq_true_eq] at hcomp
          rw [pollerLoop_succ, hand, hst]
          simp only [not_true, if_false]
          rw [if_pos hcomp]
  | succ j ih =>
    intro n count hn hnt hcomp
    cases n with
    | zero => omega
    | succ m =>
      rw [pollerLoop_step jobId polls cancel m count
        (by simpa using hnt 0 (Nat.succ_pos j)) (hc count)]
      have hshift : ∀ i, i < j → pollNonTerminal (polls (count + 1 + i)) = true := by
        intro i hi
        have := hnt (i + 1) (by omega)
        rwa [show count + (i + 1) = count + 1 + i by omega] at this
      have hcomp' : pollCompleted (polls (count + 1 + j)) = true := by
        rwa [show count + (j + 1) = count + 1 + j by omega] at hcomp
      rw [ih m (count + 1) (by omega) hshift hcomp']
      rw [show count + 1 + j = count + (j + 1) by omega]

/-- C3: if the transport reports `processing` for the first `k` polls and
`completed` on the next, the polls fit in the 300-unit budget
(`10 * k < 300`) and no cancellation signal is raised, then the poller
performs exactly `k + 1` polls and returns the completed payload — one
terminal outcome, exactly once. -/
theorem C3_poller_exact_polls (k : Nat) (jobId : PyStr)
    (polls : Nat → JValue) (cancel : Nat → Bool)
    (hfit : 10 * k < 300)
    (hproc : ∀ i, i < k →
      (polls i).truthy = true ∧ statusOf (polls i) = .ok (pys "processing"))
    (hcomp : (polls k).truthy = true ∧ statusOf (polls k) = .ok (pys "completed"))
    (hc : ∀ i, cancel i = false) :
    get_enrichment_results jobId 300 polls cancel = (.completed (polls k), k + 1) := by
  unfold get_enrichment_results
  have h30 : (300 + 9) / 10 = 30 := rfl
  rw [h30]
  have := pollerLoop_completes jobId polls cancel hc k 30 0 (by omega)
    (by
      intro i hi
      obtain ⟨ht, hs⟩ := hproc i hi
      simp only [Nat.zero_add]
      unfold pollNonTerminal
      rw [ht, hs]
      rfl)
    (by
      obtain ⟨ht, hs⟩ := hcomp
      simp only [Nat.zero_add]
      unfold pollCompleted
      rw [ht, hs]
      rfl)
  simpa using this

/-- Witness for C3 at `k = 2`. -/
theorem C3_poller_exact_polls_witness :
    get_enrichment_results (pys "job-7") 300
      (fun i => if i < 2 then processingResp else completedResp) (fun _ => false)
      = (.completed completedResp, 3) := by
  have := C3_poller_exact_polls 2 (pys "job-7")
    (fun i => if i < 2 then processingResp else completedResp) (fun _ => false)
    (by omega)
    (by
      intro i hi
      interval_cases i
      · exact ⟨rfl, rfl⟩
      · exact ⟨rfl, rfl⟩)
    ⟨rfl, rfl⟩
    (fun _ => rfl)
  simpa using this

/-- The two numeric-typed logical keys (`if key in ['employees', 'founded']`,
helpers.py line 209). -/
def numericKey (key : PyStr) : Bool :=
  key = pys "employees" ∨ key = pys "founded"

/-- What "the record is missing the requested field" means per key, following
the lookups `extract_company_data` performs for that key. -/
def fieldAbsent (fields : List (PyStr × JValue)) (key : PyStr) : Prop :=
  if key = pys "linkedin" then
    rawGet fields (pys "linkedinURL") = none ∧ rawGet fields (pys "linkedInURL") = none
  else if key = pys "website" then rawGet fields (pys "websites") = none
  else if key = pys "employees" ∨ key = pys "size" then
    rawGet fields (pys "employeeCount") = none
  else rawGet fields key = none

/-- A missing field maps to its type-appropriate empty default. -/
theorem mapKey_default (fields : List (PyStr × JValue)) (key : PyStr)
    (hmiss : fieldAbsent fields key) :
    mapKey fields key = get_default_value (numericKey key) := by
  by_cases hlk : key = pys "linkedin"
  · subst hlk
    unfold fieldAbsent at hmiss
    rw [if_pos rfl] at hmiss
    have hv : extractValue fields (pys "linkedin") = .jnull := by
      simp [extractValue, pyGet, hmiss.1, hmiss.2, pyOr, JValue.truthy]
    simp only [mapKey, hv]
    decide
  · by_cases hwb : key = pys "website"
    · subst hwb
      unfold fieldAbsent at hmiss
      rw [if_neg (by decide), if_pos rfl] at hmiss
      have hv : extractValue fields (pys "website") = .jnull := by
        unfold extractValue
        rw [if_neg (by decide), if_pos rfl, hmiss]
        rfl
      simp only [mapKey, hv]
      decide
    · by_cases hemp : key = pys "employees"
      · subst hemp
        unfold fieldAbsent at hmiss
        rw [if_neg (by decide), if_neg (by decide), if_pos (Or.inl rfl)] at hmiss
        have hg : pyGet fields (pys "employeeCount") = .jnull := by
          unfold pyGet
          rw [hmiss]
          rfl
        have hv : extractValue fields (pys "employees") = .jnull := by
          unfold extractValue
          rw [if_neg (by decide), if_neg (by decide), if_pos rfl, hg]
        simp only [mapKey, hv]
        decide
      · by_cases hsz : key = pys "size"
        · subst hsz
          unfold fieldAbsent at hmiss
          rw [if_neg (by decide), if_neg (by decide), if_pos (Or.inr rfl)] at hmiss
          have hg : pyGet fields (pys "employeeCount") = .jnull := by
            unfold pyGet
            rw [hmiss]
            rfl
          have hv : extractValue fields (pys "size") = .jstr [] := by
            unfold extractValue
            rw [if_neg (by decide), if_neg (by decide), if_neg (by decide), if_pos rfl, hg]
            rfl
          simp only [mapKey, hv]
          decide
        · unfold fieldAbsent at hmiss
          rw [if_neg hlk, if_neg hwb, if_neg (fun h => h.elim hemp hsz)] at hmiss
          have hg : pyGet fields key = .jnull := by
            unfold pyGet
            rw [hmiss]
            rfl
          have hv : extractValue fields key = .jnull := by
            unfold extractValue
            rw [if_neg hlk, if_neg hwb, if_neg hemp, if_neg hsz, hg]
          by_cases hfd : key = pys "founded"
          · subst hfd
            simp only [mapKey, hv]
            decide
          · have hnum : numericKey key = false := by
              simp [numericKey, hemp, hfd]
            simp only [mapKey, hv, hnum]
            rw [if_neg (fun h => hlk h.1), if_neg (fun h => h.elim hemp hfd)]
            rfl

/-- One-record wrapper: extracting from a response holding a single company
record reduces to processing that record. -/
theorem extract_single (fields : List (PyStr × JValue)) (selected : List PyStr) :
    extract_company_data (.jobj [(pys "companies", .jarr [.jobj fields])]) selected
      = match processCompany selected (.jobj fields) with
        | .error e => .error e
        | .ok none => .ok []
        | .ok (some entry) => .ok [entry] := by
  have h1 : extract_company_data (.jobj [(pys "companies", .jarr [.jobj fields])]) selected
      = extractLoop selected [.jobj fields] := rfl
  rw [h1]
  unfold extractLoop
  cases h : processCompany selected (.jobj fields) with
  | error e => rfl
  | ok r =>
    cases r with
    | none => rfl
    | some entry => rfl

/-- C7: a vendor record that is missing a requested field maps that field to
the requested key's type-appropriate empty default — `None` for the numeric
keys (`employees`, `founded`), the empty string otherwise — and no exception
escapes the extraction: the record is returned normally. -/
theorem C7_missing_field_default (fields : List (PyStr × JValue)) (key : PyStr)
    (hmiss : fieldAbsent fields key)
    (hid : rawGet fields (pys "externalID") = some (.jstr (pys "row_0"))) :
    extract_company_data (.jobj [(pys "companies", .jarr [.jobj fields])]) [key]
      = .ok [(0, [(key, get_default_value (numericKey key))])] := by
  have he : pyGet fields (pys "externalID") = .jstr (pys "row_0") := by
    unfold pyGet
    rw [hid]
    rfl
  have hpc : processCompany [key] (.jobj fields)
      = .ok (some (0, [(key, mapKey fields key)])) := by
    simp only [processCompany, he]
    rfl
  rw [extract_single, hpc]
  simp only [mapKey_default fields key hmiss]

/-- Witness for C7: a record holding only its correlation id, queried for the
`linkedin` key. -/
theorem C7_missing_field_default_witness :
    extract_company_data
      (.jobj [(pys "companies",
        .jarr [.jobj [(pys "externalID", .jstr (pys "row_0"))]])])
      [pys "linkedin"]
      = .ok [(0, [(pys "linkedin", get_default_value (numericKey (pys "linkedin")))])] :=
  C7_missing_field_default [(pys "externalID", .jstr (pys "row_0"))] (pys "linkedin")
    ⟨rfl, rfl⟩ rfl

/-- A record the company loop can process without raising: an object whose
`externalID` is either falsy (absent, null, empty, zero, ...) or a string.
A truthy non-string `externalID` reaches `.startswith` and raises an
`AttributeError` that the loop's `except (ValueError, IndexError)` clause
does not catch. -/
def companyOk : JValue → Bool
  | .jobj fields =>
    let e := pyGet fields (pys "externalID")
    (¬ e.truthy) ||
      match e with
      | .jstr _ => true
      | _ => false
  | _ => false

/-- The row index a record is stored under, when it is: a truthy string
`externalID` with the `row_` prefix whose second `'_'`-separated chunk parses
as an integer. -/
def rowIndexOf : JValue → Option Int
  | .jobj fields =>
    let e := pyGet fields (pys "externalID")
    if ¬ e.truthy then none
    else
      match e with
      | .jstr s =>
        if ¬ (pys "row_").isPrefixOf s then none
        else ((pySplit '_' s).get? 1).bind pyIntParse
      | _ => none
  | _ => none

/-- The field list of an object record (empty for non-objects). -/
def JValue.fieldsOf : JValue → List (PyStr × JValue)
  | .jobj fs => fs
  | _ => []

/-- A processable record never raises, and is stored exactly under
`rowIndexOf`, carrying the mapped selected keys. -/
theorem processCompany_ok (selected : List PyStr) (c : JValue)
    (hok : companyOk c = true) :
    (rowIndexOf c = none → processCompany selected c = .ok none) ∧
    (∀ i, rowIndexOf c = some i →
      processCompany selected c
        = .ok (some (i, selected.map (fun k => (k, mapKey c.fieldsOf k))))) := by
  cases c with
  | jobj fields =>
    simp only [companyOk] at hok
    simp only [processCompany, rowIndexOf, JValue.fieldsOf]
    cases he : pyGet fields (pys "externalID") with
    | jnull => exact ⟨fun _ => rfl, fun i h => by cases h⟩
    | jbool b =>
      rw [he] at hok
      simp [JValue.truthy] at hok
      subst hok
      exact ⟨fun _ => rfl, fun i h => by cases h⟩
    | jint n =>
      rw [he] at hok
      simp [JValue.truthy] at hok
      subst hok
      exact ⟨fun _ => rfl, fun i h => by cases h⟩
    | jarr xs =>
      rw [he] at hok
      simp [JValue.truthy] at hok
      subst hok
      exact ⟨fun _ => rfl, fun i h => by cases h⟩
    | jobj fs =>
      rw [he] at hok
      simp [JValue.truthy] at hok
      subst hok
      exact ⟨fun _ => rfl, fun i h => by cases h⟩
    | jstr s =>
      rcases hse : s.isEmpty with _ | _
      · have hcond : ¬ ¬ (JValue.jstr s).truthy = true := by
          simp [JValue.truthy, hse]
        simp only [if_neg hcond]
        by_cases hpre : (pys "row_").isPrefixOf s = true
        · have hpcond : ¬ ¬ List.isPrefixOf (pys "row_") s = true := by simp [hpre]
          simp only [if_neg hpcond]
          cases hsplit : (pySplit '_' s).get? 1 with
          | none => simp [hsplit]
          | some part =>
            simp only [hsplit, Option.some_bind]
            cases hparse : pyIntParse part with
            | none => simp [hparse]
            | some j =>
              simp only [hparse]
              refine ⟨by simp, fun i h => ?_⟩
              have hj : j = i := by simpa using h
              subst hj
              simp
        · simp only [if_pos hpre]
          exact ⟨fun _ => trivial, fun i h => by cases h⟩
      · have hcond : ¬ (JValue.jstr s).truthy = true := by
          simp [JValue.truthy, hse]
        simp only [if_pos hcond]
        exact ⟨fun _ => trivial, fun i h => by cases h⟩
  | jnull => cases hok
  | jbool b => cases hok
  | jint n => cases hok
  | jstr s => cases hok
  | jarr xs => cases hok

/-- With every record processable, the company loop never raises and its
result covers every record that has a row index. -/
theorem extractLoop_covers (selected : List PyStr) :
    ∀ cs : List JValue, (∀ c ∈ cs, companyOk c = true) →
      ∃ m, extractLoop selected cs = .ok m ∧
        ∀ c ∈ cs, ∀ i, rowIndexOf c = some i → ∃ data, (i, data) ∈ m := by
  intro cs
  induction cs with
  | nil => exact fun _ => ⟨[], rfl, fun c hc => absurd hc (List.not_mem_nil c)⟩
  | cons c cs ih =>
    intro hwt
    obtain ⟨m, hm, hcov⟩ := ih (fun x hx => hwt x (List.mem_cons_of_mem c hx))
    have hok := hwt c (List.mem_cons_self c cs)
    have hpc := processCompany_ok selected c hok
    cases hrow : rowIndexOf c with
    | none =>
      refine ⟨m, ?_, ?_⟩
      · unfold extractLoop
        rw [hpc.1 hrow, hm]
        rfl
      · intro x hx i hi
        rcases List.mem_cons.mp hx with rfl | hx'
        · rw [hrow] at hi
          cases hi
        · exact hcov x hx' i hi
    | some i =>
      refine ⟨(i, selected.map (fun k => (k, mapKey c.fieldsOf k))) :: m, ?_, ?_⟩
      · unfold extractLoop
        rw [hpc.2 i hrow, hm]
        rfl
      · intro x hx j hj
        rcases List.mem_cons.mp hx with rfl | hx'
        · rw [hrow] at hj
          have : i = j := by injection hj
          subst this
          exact ⟨_, List.mem_cons_self _ _⟩
        · obtain ⟨d, hd⟩ := hcov x hx' j hj
          exact ⟨d, List.mem_cons_of_mem _ hd⟩

/-- C6 counterexample: the claim says a wrongly typed field value in one
record never aborts extraction of the remaining records and nothing is
raised.  A record whose `externalID` is the integer 123 makes
`external_id.startswith('row_')` raise `AttributeError` — not caught by the
`except (ValueError, IndexError)` clause — so the whole extraction raises and
the following well-formed record is lost. -/
theorem C6_counterexample :
    extract_company_data
      (.jobj [(pys "companies",
        .jarr [.jobj [(pys "externalID", .jint 123)],
               .jobj [(pys "externalID", .jstr (pys "row_1")),
                      (pys "name", .jstr (pys "Acme"))]])])
      [pys "name"]
      = .error .attributeError := rfl

/-- C6 amended: provided every record is an object whose `externalID` is
falsy, absent or a string, a malformed value in any *other* field of any
record never aborts extraction: the function returns a map without raising,
and it covers every record that derives a row index, regardless of the other
records' field values. -/
theorem C6_isolation (cs : List JValue) (selected : List PyStr)
    (hwt : ∀ c ∈ cs, companyOk c = true) :
    ∃ m, extract_company_data (.jobj [(pys "companies", .jarr cs)]) selected = .ok m ∧
      ∀ c ∈ cs, ∀ i, rowIndexOf c = some i → ∃ data, (i, data) ∈ m := by
  cases cs with
  | nil => exact ⟨[], rfl, fun c hc => absurd hc (List.not_mem_nil c)⟩
  | cons c cs =>
    obtain ⟨m, hm, hcov⟩ := extractLoop_covers selected (c :: cs) hwt
    refine ⟨m, ?_, hcov⟩
    have h1 : extract_company_data (.jobj [(pys "companies", .jarr (c :: cs))]) selected
        = extractLoop selected (c :: cs) := rfl
    rw [h1, hm]

/-- Witness for C6: one record carrying a wrongly typed `name` alongside one
with a null `externalID`; extraction succeeds and covers row 2. -/
theorem C6_isolation_witness :
    ∃ m, extract_company_data
        (.jobj [(pys "companies",
          .jarr [.jobj [(pys "externalID", .jstr (pys "row_2")),
                        (pys "name", .jint 7)],
                 .jobj [(pys "externalID", .jnull)]])])
        [pys "name"]
      = .ok m ∧
      ∀ c ∈ [JValue.jobj [(pys "externalID", .jstr (pys "row_2")),
                          (pys "name", .jint 7)],
             JValue.jobj [(pys "externalID", .jnull)]],
        ∀ i, rowIndexOf c = some i → ∃ data, (i, data) ∈ m := by
  refine C6_isolation _ [pys "name"] ?_
  intro c hc
  rcases List.mem_cons.mp hc with rfl | hc'
  · rfl
  · rcases List.mem_cons.mp hc' with rfl | hc''
    · rfl
    · exact absurd hc'' (List.not_mem_nil c)

/-- C10 counterexample: the claim says any record whose suffix after `row_`
is not a parseable integer is dropped.  `externalID = "row_5_extra"` has the
unparseable suffix `5_extra`, yet the code parses only `split('_')[1]` and
stores the record under row index 5. -/
theorem C10_counterexample :
    extract_company_data
      (.jobj [(pys "companies",
        .jarr [.jobj [(pys "externalID", .jstr (pys "row_5_extra"))]])])
      [pys "name"]
      = .ok [(5, [(pys "name", .vstr [])])] := rfl

/-- C10 amended: a returned company is silently dropped (no error, absent
from the map) exactly when its `externalID` is falsy or absent, is a string
not starting with `row_`, or is a `row_`-prefixed string whose *second
`'_'`-separated chunk* does not parse as an integer; when that chunk parses
as `i` the record is stored under `i` even if the full suffix after `row_`
is not a parseable integer.  (A truthy non-string `externalID` instead
raises, per C6.) -/
theorem C10_drop_conditions (fields : List (PyStr × JValue)) (selected : List PyStr) :
    ((pyGet fields (pys "externalID")).truthy = false →
      extract_company_data (.jobj [(pys "companies", .jarr [.jobj fields])]) selected
        = .ok []) ∧
    (∀ s, pyGet fields (pys "externalID") = .jstr s →
      (pys "row_").isPrefixOf s = false →
      extract_company_data (.jobj [(pys "companies", .jarr [.jobj fields])]) selected
        = .ok []) ∧
    (∀ s, pyGet fields (pys "externalID") = .jstr s →
      (pys "row_").isPrefixOf s = true →
      ((pySplit '_' s).get? 1).bind pyIntParse = none →
      extract_company_data (.jobj [(pys "companies", .jarr [.jobj fields])]) selected
        = .ok []) ∧
    (∀ s i, pyGet fields (pys "externalID") = .jstr s →
      (pys "row_").isPrefixOf s = true →
      ((pySplit '_' s).get? 1).bind pyIntParse = some i →
      extract_company_data (.jobj [(pys "companies", .jarr [.jobj fields])]) selected
        = .ok [(i, selected.map (fun k => (k, mapKey fields k)))]) := by
  refine ⟨?_, ?_, ?_, ?_⟩
  · intro h
    have hok : companyOk (.jobj fields) = true := by simp [companyOk, h]
    have hrow : rowIndexOf (.jobj fields) = none := by simp [rowIndexOf, h]
    rw [extract_single, (processCompany_ok selected _ hok).1 hrow]
  · intro s he hpre
    have hok : companyOk (.jobj fields) = true := by simp [companyOk, he]
    have hrow : rowIndexOf (.jobj fields) = none := by
      simp only [rowIndexOf, he]
      by_cases ht : (JValue.jstr s).truthy = true
      · rw [if_neg (by simp [ht]), if_pos (by simp [hpre])]
      · rw [if_pos ht]
    rw [extract_single, (processCompany_ok selected _ hok).1 hrow]
  · intro s he hpre hbind
    have hok : companyOk (.jobj fields) = true := by simp [companyOk, he]
    have hrow : rowIndexOf (.jobj fields) = none := by
      simp only [rowIndexOf, he]
      by_cases ht : (JValue.jstr s).truthy = true
      · rw [if_neg (by simp [ht]), if_neg (by simp [hpre])]
        exact hbind
      · rw [if_pos ht]
    rw [extract_single, (processCompany_ok selected _ hok).1 hrow]
  · intro s i he hpre hbind
    have hok : companyOk (.jobj fields) = true := by simp [companyOk, he]
    have hsne : s.isEmpty = false := by
      cases s with
      | nil => cases hpre
      | cons a t => rfl
    have ht : (JValue.jstr s).truthy = true := by simp [JValue.truthy, hsne]
    have hrow : rowIndexOf (.jobj fields) = some i := by
      simp only [rowIndexOf, he]
      rw [if_neg (by simp [ht]), if_neg (by simp [hpre])]
      exact hbind
    rw [extract_single, (processCompany_ok selected _ hok).2 i hrow]
    rfl

/-- Witness for C10: `row_x` (unparseable second chunk) is dropped silently;
`row_5_extra` is stored under 5. -/
theorem C10_drop_conditions_witness :
    extract_company_data
      (.jobj [(pys "companies",
        .jarr [.jobj [(pys "externalID", .jstr (pys "row_x"))]])])
      [pys "name"] = .ok [] ∧
    extract_company_data
      (.jobj [(pys "companies",
        .jarr [.jobj [(pys "externalID", .jstr (pys "row_5_extra"))]])])
      [pys "name"]
      = .ok [(5, [(pys "name",
          mapKey [(pys "externalID", .jstr (pys "row_5_extra"))] (pys "name"))])] :=
  ⟨(C10_drop_conditions [(pys "externalID", .jstr (pys "row_x"))] [pys "name"]).2.2.1
      (pys "row_x") rfl (by decide) rfl,
   by
    have h := (C10_drop_conditions [(pys "externalID", .jstr (pys "row_5_extra"))]
      [pys "name"]).2.2.2 (pys "row_5_extra") 5 rfl (by decide) rfl
    simpa using h⟩

/-- The Bool prefix test, in `IsPrefix` terms. -/
theorem isPrefixOfE (l₁ l₂ : List Char) : l₁.isPrefixOf l₂ = true ↔ l₁ <+: l₂ :=
  List.isPrefixOf_iff_prefix

/-- A Bool prefix of `h` stays a prefix of `h ++ t`. -/
theorem isPrefixOf_append_ext (n h t : List Char) (hp : n.isPrefixOf h = true) :
    n.isPrefixOf (h ++ t) = true := by
  rw [isPrefixOfE] at hp ⊢
  exact hp.trans (List.prefix_append h t)

/-- A substring of `h` stays a substring of `h ++ t`. -/
theorem containsSub_append_ext (n t : List Char) :
    ∀ h, containsSub n h = true → containsSub n (h ++ t) = true := by
  intro h
  induction h with
  | nil =>
    intro hc
    have hn : n = [] := by
      cases n with
      | nil => rfl
      | cons a b => cases hc
    subst hn
    cases t with
    | nil => rfl
    | cons c r => simp [containsSub, List.isPrefixOf]
  | cons c h2 ih =>
    intro hc
    rw [List.cons_append]
    simp only [containsSub, Bool.or_eq_true] at hc ⊢
    rcases hc with hp | hrest
    · refine Or.inl ?_
      have := isPrefixOf_append_ext n (c :: h2) t hp
      rwa [List.cons_append] at this
    · exact Or.inr (ih hrest)

/-- Every character of a matched needle occurs in the haystack. -/
theorem mem_of_containsSub (n : List Char) (c : Char) (hcn : c ∈ n) :
    ∀ h, containsSub n h = true → c ∈ h := by
  intro h
  induction h with
  | nil =>
    intro hc
    cases n with
    | nil => cases hcn
    | cons a b => cases hc
  | cons d h2 ih =>
    intro hc
    simp only [containsSub, Bool.or_eq_true] at hc
    rcases hc with hp | hrest
    · rw [isPrefixOfE] at hp
      exact hp.sublist.subset hcn
    · exact List.mem_cons_of_mem d (ih hrest)

/-- `takeWhile` is the identity when the predicate holds everywhere. -/
theorem takeWhile_all (p : Char → Bool) :
    ∀ l : List Char, (∀ c ∈ l, p c = true) → l.takeWhile p = l := by
  intro l
  induction l with
  | nil => intro _; rfl
  | cons a t ih =>
    intro h
    rw [List.takeWhile_cons, if_pos (h a (List.mem_cons_self a t)),
      ih (fun c hc => h c (List.mem_cons_of_mem a hc))]

/-- `dropWhile` is the identity when the predicate fails everywhere. -/
theorem dropWhile_allF (p : Char → Bool) :
    ∀ l : List Char, (∀ c ∈ l, p c = false) → l.dropWhile p = l := by
  intro l
  cases l with
  | nil => intro _; rfl
  | cons a t =>
    intro h
    rw [List.dropWhile_cons,
      if_neg (by rw [h a (List.mem_cons_self a t)]; exact Bool.false_ne_true)]

/-- `strip` is the identity on a string whose first and last characters are
not whitespace. -/
theorem pyStrip_eq_self (l : List Char) (c₁ c₂ : Char)
    (h1 : l.head? = some c₁) (hc1 : isPySpace c₁ = false)
    (h2 : l.getLast? = some c₂) (hc2 : isPySpace c₂ = false) :
    pyStrip l = l := by
  unfold pyStrip
  have hd : l.dropWhile isPySpace = l := by
    cases l with
    | nil => cases h1
    | cons a t =>
      injection h1 with h1'
      subst h1'
      rw [List.dropWhile_cons, if_neg (by rw [hc1]; exact Bool.false_ne_true)]
  rw [hd]
  have hrev : l.reverse.head? = some c₂ := by
    rw [List.head?_reverse]
    exact h2
  have hd2 : l.reverse.dropWhile isPySpace = l.reverse := by
    cases hr : l.reverse with
    | nil => rw [hr] at hrev; cases hrev
    | cons a t =>
      rw [hr] at hrev
      injection hrev with h2'
      subst h2'
      rw [List.dropWhile_cons, if_neg (by rw [hc2]; exact Bool.false_ne_true)]
  rw [hd2, List.reverse_reverse]

/-- `strip` is the identity on a whitespace-free string. -/
theorem pyStrip_nospace (l : List Char) (h : ∀ c ∈ l, isPySpace c = false) :
    pyStrip l = l := by
  unfold pyStrip
  rw [dropWhile_allF _ l h,
    dropWhile_allF _ l.reverse (fun c hc => h c (List.mem_reverse.mp hc)),
    List.reverse_reverse]

/-- `strip` is the identity on a canonical company URL. -/
theorem canonical_strip (s : PyStr) :
    pyStrip (canonicalCompanyUrl s) = canonicalCompanyUrl s :=
  pyStrip_eq_self (canonicalCompanyUrl s) 'h' '/' rfl (by decide)
    (List.getLast?_concat _) (by decide)

/-- The company marker occurs in every canonical company URL. -/
theorem canonical_marker (s : PyStr) :
    containsSub (pys "linkedin.com/company") (canonicalCompanyUrl s) = true := by
  unfold canonicalCompanyUrl
  apply containsSub_append_ext
  apply containsSub_append_ext
  decide

/-- `www.` occurs in every canonical company URL. -/
theorem canonical_www (s : PyStr) :
    containsSub (pys "www.") (canonicalCompanyUrl s) = true := by
  unfold canonicalCompanyUrl
  apply containsSub_append_ext
  apply containsSub_append_ext
  decide

/-- Every canonical company URL starts with `https://`. -/
theorem canonical_https (s : PyStr) :
    (pys "https://").isPrefixOf (canonicalCompanyUrl s) = true := by
  unfold canonicalCompanyUrl
  apply isPrefixOf_append_ext
  apply isPrefixOf_append_ext
  decide

/-- No canonical company URL starts with `http://`. -/
theorem canonical_not_http (s : PyStr) :
    (pys "http://").isPrefixOf (canonicalCompanyUrl s) = false := by
  cases hx : (pys "http://").isPrefixOf (canonicalCompanyUrl s)
  · rfl
  · exfalso
    rw [isPrefixOfE, List.prefix_iff_eq_take] at hx
    have hlen : (pys "http://").length = 7 := rfl
    rw [hlen] at hx
    unfold canonicalCompanyUrl at hx
    rw [List.append_assoc, List.take_append_of_le_length (by decide)] at hx
    exact absurd hx (by decide)

/-- A canonical company URL over a `'?'`-free slug is `'?'`-free. -/
theorem canonical_noq (s : PyStr) (hq : ∀ c ∈ s, c ≠ '?') :
    ∀ c ∈ canonicalCompanyUrl s, c ≠ '?' := by
  intro c hc
  unfold canonicalCompanyUrl at hc
  rw [List.append_assoc] at hc
  rcases List.mem_append.mp hc with hA | hrest
  · exact (by decide : ∀ c ∈ pys "https://www.linkedin.com/company/", c ≠ '?') c hA
  · rcases List.mem_append.mp hrest with hs | hsl
    · exact hq c hs
    · have : c = '/' := by simpa using hsl
      subst this
      decide

/-- Dropping query parameters is the identity on a `'?'`-free canonical
company URL. -/
theorem canonical_splitq (s : PyStr) (hq : ∀ c ∈ s, c ≠ '?') :
    splitHead '?' (canonicalCompanyUrl s) = canonicalCompanyUrl s := by
  unfold splitHead
  apply takeWhile_all
  intro c hc
  exact decide_eq_true (canonical_noq s hq c hc)

/-- A canonical company URL ends with a slash. -/
theorem canonical_endslash (s : PyStr) :
    pyEndsWith (canonicalCompanyUrl s) '/' = true := by
  have h := List.getLast?_concat (α := Char)
    (pys "https://www.linkedin.com/company/" ++ s) (a := '/')
  simp [pyEndsWith, canonicalCompanyUrl, h]

/-- A canonical company URL over a `'?'`-free slug is a fixed point of
`format_linkedin_url`. -/
theorem format_canonical_fix (s : PyStr) (hq : ∀ c ∈ s, c ≠ '?') :
    format_linkedin_url (canonicalCompanyUrl s) = canonicalCompanyUrl s := by
  have hne : (canonicalCompanyUrl s).isEmpty = false := rfl
  have hempty : ¬ ((canonicalCompanyUrl s).isEmpty = true) := by
    rw [hne]
    exact Bool.false_ne_true
  have hhttp : ¬ ((pys "http://").isPrefixOf (canonicalCompanyUrl s) = true) := by
    rw [canonical_not_http s]
    exact Bool.false_ne_true
  simp only [format_linkedin_url]
  rw [if_neg hempty, canonical_strip s, if_pos (canonical_marker s),
    canonical_splitq s hq, if_pos (canonical_endslash s), if_neg hhttp,
    if_pos (canonical_https s), if_pos (canonical_www s)]

/-- A non-empty bare slug — no whitespace, no `/`, no `?` — expands to the
canonical company URL. -/
theorem format_slug (u : PyStr) (hne : u ≠ [])
    (hch : ∀ c ∈ u, isPySpace c = false ∧ c ≠ '/' ∧ c ≠ '?') :
    format_linkedin_url u = canonicalCompanyUrl u := by
  have hstrip : pyStrip u = u := pyStrip_nospace u (fun c hc => (hch c hc).1)
  have hemp : u.isEmpty = false := by
    cases u with
    | nil => exact absurd rfl hne
    | cons a t => rfl
  have hmark : containsSub (pys "linkedin.com/company") u = false := by
    cases hx : containsSub (pys "linkedin.com/company") u
    · rfl
    · exact absurd rfl ((hch '/' (mem_of_containsSub _ '/' (by decide) u hx)).2.1)
  have hslash : ¬ ('/' ∈ u) := fun hm => (hch '/' hm).2.1 rfl
  have hempty : ¬ (u.isEmpty = true) := by
    rw [hemp]
    exact Bool.false_ne_true
  have hmark2 : ¬ (containsSub (pys "linkedin.com/company") u = true) := by
    rw [hmark]
    exact Bool.false_ne_true
  simp only [format_linkedin_url]
  rw [if_neg hempty, hstrip, if_neg hmark2, if_pos hslash]
  rfl

/-- C8 counterexample: the claim asserts idempotence for *every* input
string.  For the slug `a?b`, the first pass builds
`https://www.linkedin.com/company/a?b/` and the second pass strips the query
suffix, yielding a different URL. -/
theorem C8_counterexample :
    format_linkedin_url (format_linkedin_url (pys "a?b"))
      ≠ format_linkedin_url (pys "a?b") := by decide

/-- C8 amended: canonicalization is idempotent on the spec's stated scopes —
every already-canonical company URL `https://www.linkedin.com/company/<slug>/`
with a `'?'`-free slug is a fixed point, and every non-empty bare slug
(no whitespace, no `/`, no `?`) expands to such a canonical URL, on which
re-canonicalization is the identity; idempotence fails for arbitrary strings
(e.g. a slug containing `?`). -/
theorem C8_idempotent_on_canonical :
    (∀ s : PyStr, (∀ c ∈ s, c ≠ '?') →
      format_linkedin_url (canonicalCompanyUrl s) = canonicalCompanyUrl s) ∧
    (∀ u : PyStr, u ≠ [] → (∀ c ∈ u, isPySpace c = false ∧ c ≠ '/' ∧ c ≠ '?') →
      format_linkedin_url u = canonicalCompanyUrl u ∧
      format_linkedin_url (format_linkedin_url u) = format_linkedin_url u) := by
  refine ⟨format_canonical_fix, fun u hne hch => ?_⟩
  have h1 := format_slug u hne hch
  refine ⟨h1, ?_⟩
  rw [h1, format_canonical_fix u (fun c hc => (hch c hc).2.2)]

/-- Witness for C8 at the slug `google`. -/
theorem C8_idempotent_on_canonical_witness :
    format_linkedin_url (canonicalCompanyUrl (pys "google"))
      = canonicalCompanyUrl (pys "google") ∧
    format_linkedin_url (pys "google") = canonicalCompanyUrl (pys "google") ∧
    format_linkedin_url (format_linkedin_url (pys "google"))
      = format_linkedin_url (pys "google") :=
  ⟨C8_idempotent_on_canonical.1 (pys "google") (by decide),
   (C8_idempotent_on_canonical.2 (pys "google") (by decide) (by decide)).1,
   (C8_idempotent_on_canonical.2 (pys "google") (by decide) (by decide)).2⟩
